import Mathlib

/-!
Verification of the project-management dashboard (`src/app/page.tsx`).

This file shallowly embeds the data model and the pure logic of the
dashboard: the record mapper that normalizes loosely-typed Firestore
documents, the date helpers, the progress aggregator, the filter pipeline,
the upsert / task-status mutations, and the load/persist effect discipline.

Modelling conventions:
* JavaScript numbers are embedded as exact integers (`Int`); the dashboard
  only ever computes on integral millisecond timestamps, day counts and
  task counts, so the idealization is faithful except that IEEE-754
  rounding of non-representable intermediate quotients is replaced by
  exact rational arithmetic.
* The host timezone is fixed to UTC: `new Date(s + "T00:00:00")` is local
  midnight, and `toISOString` renders UTC, so the embedding equates the
  two, which matches a UTC host.
* `new Date(string)` on a string that does not parse in the ISO
  `yyyy-mm-dd` calendar-date format (the only format the app itself ever
  writes) is an Invalid Date; calling `toISOString()` on an Invalid Date
  throws a `RangeError`.  The embedding models that raised exception with
  `JsResult.thrown`.
* `generateId()` (backed by `Date.now()` and `Math.random()`) is
  determinized as an id supply `gen : Nat → String`, indexed by the order
  in which the call site generates ids.
-/

namespace ProjMgmt

/-! ## JavaScript string primitives

Character-list implementations of `String.prototype.trim`,
`String.prototype.toLowerCase`, `String.prototype.split(",")` and
`String.prototype.includes`, kept kernel-reducible so concrete witnesses
evaluate by `decide`. -/

/-- Model of `String.prototype.trim`: strip whitespace from both ends. -/
def jsTrim (s : String) : String :=
  String.mk (((s.data.dropWhile Char.isWhitespace).reverse.dropWhile
    Char.isWhitespace).reverse)

/-- ASCII lower-casing of one character (model of the case mapping used by
`toLowerCase` on the ASCII range; the app compares search text with itself
so the restriction to ASCII is immaterial). -/
def lowerChar (c : Char) : Char :=
  if 'A' ≤ c ∧ c ≤ 'Z' then Char.ofNat (c.toNat + 32) else c

/-- Model of `String.prototype.toLowerCase`. -/
def jsToLower (s : String) : String :=
  String.mk (s.data.map lowerChar)

/-- Does the character list start with the given pattern? -/
def startsWithSeq : List Char → List Char → Bool
  | _, [] => true
  | [], _ :: _ => false
  | a :: as, b :: bs => a = b && startsWithSeq as bs

/-- Does the character list contain the pattern as a contiguous run? -/
def containsSeq : List Char → List Char → Bool
  | [], pat => pat.isEmpty
  | a :: rest, pat => startsWithSeq (a :: rest) pat || containsSeq rest pat

/-- Model of `String.prototype.includes`. -/
def jsIncludes (s pat : String) : Bool :=
  containsSeq s.data pat.data

/-- Split a character list at commas; `"a,,b"` yields `["a", "", "b"]` and
`""` yields `[""]`, matching `String.prototype.split(",")`. -/
def splitCommaAux : List Char → List Char → List (List Char)
  | [], acc => [acc.reverse]
  | c :: rest, acc =>
    if c = ',' then acc.reverse :: splitCommaAux rest []
    else splitCommaAux rest (c :: acc)

/-- Model of `String.prototype.split(",")`. -/
def jsSplitComma (s : String) : List String :=
  (splitCommaAux s.data []).map String.mk

/-! ## Result of a JavaScript computation that may throw -/

/-- Either a value, or a raised JavaScript exception (here always the
`RangeError` thrown by `Date.prototype.toISOString` on an Invalid Date). -/
inductive JsResult (α : Type) where
  | ok (a : α)
  | thrown
deriving DecidableEq, Repr

/-! ## Calendar-date library

The app stores dates as ISO `yyyy-mm-dd` strings.  Civil dates are
interconverted with day numbers (days since 1970-01-01) by the standard
civil-from-days / days-from-civil algorithms, which is exactly the
arithmetic `Date` performs on a UTC host. -/

/-- A civil calendar date. -/
structure Ymd where
  year : Int
  month : Int
  day : Int
deriving DecidableEq, Repr

/-- Gregorian leap-year test. -/
def isLeapYear (y : Int) : Bool :=
  (y % 4 = 0 && y % 100 ≠ 0) || y % 400 = 0

/-- Number of days in a month (month in 1..12). -/
def daysInMonth (y m : Int) : Int :=
  if m = 2 then (if isLeapYear y then 29 else 28)
  else if m = 4 ∨ m = 6 ∨ m = 9 ∨ m = 11 then 30
  else 31

/-- Numeric value of a decimal digit character. -/
def digitVal (c : Char) : Int :=
  (c.toNat : Int) - ('0'.toNat : Int)

/-- Parse an ISO `yyyy-mm-dd` calendar date.  Returns `none` for any other
string, modelling `new Date(s + "T00:00:00")` evaluating to an Invalid
Date.  (A real engine also accepts some longer date-time strings; the app
only ever stores the 10-character calendar-date form, and every string the
proofs instantiate is either of that form or unparseable in any engine.) -/
def parseYMD (s : String) : Option Ymd :=
  match s.data with
  | [y1, y2, y3, y4, h1, m1, m2, h2, d1, d2] =>
    if (y1.isDigit && y2.isDigit && y3.isDigit && y4.isDigit &&
        m1.isDigit && m2.isDigit && d1.isDigit && d2.isDigit &&
        h1 = '-' && h2 = '-') then
      let y := 1000 * digitVal y1 + 100 * digitVal y2 + 10 * digitVal y3 + digitVal y4
      let m := 10 * digitVal m1 + digitVal m2
      let d := 10 * digitVal d1 + digitVal d2
      if 1 ≤ m ∧ m ≤ 12 ∧ 1 ≤ d ∧ d ≤ daysInMonth y m then some ⟨y, m, d⟩
      else none
    else none
  | _ => none

/-- Days since 1970-01-01 of a civil date (Howard Hinnant's
`days_from_civil`; `Int` division is floor division, matching the
algorithm's intent). -/
def daysFromCivil (c : Ymd) : Int :=
  let y := if c.month ≤ 2 then c.year - 1 else c.year
  let era := y / 400
  let yoe := y - era * 400
  let mp := (c.month + 9) % 12
  let doy := (153 * mp + 2) / 5 + c.day - 1
  let doe := yoe * 365 + yoe / 4 - yoe / 100 + doy
  era * 146097 + doe - 719468

/-- Civil date of a day number (Hinnant's `civil_from_days`). -/
def civilFromDays (z0 : Int) : Ymd :=
  let z := z0 + 719468
  let era := z / 146097
  let doe := z - era * 146097
  let yoe := (doe - doe / 1460 + doe / 36524 - doe / 146096) / 365
  let y := yoe + era * 400
  let doy := doe - (365 * yoe + yoe / 4 - yoe / 100)
  let mp := (5 * doy + 2) / 153
  let d := doy - (153 * mp + 2) / 5 + 1
  let m := mp + (if mp < 10 then 3 else -9)
  ⟨if m ≤ 2 then y + 1 else y, m, d⟩

/-- Render a natural number zero-padded to the given width. -/
def padNat (w : Nat) (n : Nat) : String :=
  let s := toString n
  if s.length < w then String.mk (List.replicate (w - s.length) '0') ++ s else s

/-- Render a civil date as `yyyy-mm-dd`, the `toISOString().slice(0, 10)`
form (years of app-relevant dates lie in 0..9999). -/
def formatCivil (c : Ymd) : String :=
  padNat 4 c.year.toNat ++ "-" ++ padNat 2 c.month.toNat ++ "-" ++ padNat 2 c.day.toNat

/-- Source `defaultStartFromDeadline`: parse the deadline at local
midnight, step the day-of-month back 30 (date arithmetic with calendar
underflow, i.e. exactly 30 days earlier), and render via
`toISOString().slice(0, 10)`.  On an unparseable deadline the `Date` is
invalid and `toISOString()` throws. -/
def defaultStartFromDeadline (deadlineISO : String) : JsResult String :=
  match parseYMD deadlineISO with
  | some c => .ok (formatCivil (civilFromDays (daysFromCivil c - 30)))
  | none => .thrown

/-- Milliseconds of `toDateAtEnd` (source): the instant 23:59:59.999 on
the given civil day. -/
def toDateAtEndMs (c : Ymd) : Int :=
  daysFromCivil c * 86400000 + 86399999

/-- Source `daysUntil`: floored whole-day difference between the end of
the deadline day and the current instant `now` (in ms since epoch).
`none` models the `NaN` produced by an unparseable deadline. -/
def daysUntil (deadlineISO : String) (now : Int) : Option Int :=
  (parseYMD deadlineISO).map fun c => (toDateAtEndMs c - now) / 86400000

/-- The civil day number containing an instant (the day that is "today"
for that instant); spec-side notion used to state the `daysUntil`
properties. -/
def dayOfInstant (now : Int) : Int :=
  now / 86400000

/-! ## Data model (source `Task`, `Project`)

`description`, `area`, `startDate` are optional in the source interfaces;
`archived?: boolean` is embedded as `Bool` because every consumer reads it
through JavaScript truthiness, under which an absent flag and `false`
are indistinguishable. -/

/-- Source `TaskStatus`. -/
inductive TaskStatus where
  | todo
  | ongoing
  | done
deriving DecidableEq, Repr

/-- Source `Task`. -/
structure Task where
  id : String
  title : String
  area : Option String
  status : TaskStatus
deriving DecidableEq, Repr

/-- Source `Project`. -/
structure Project where
  id : String
  name : String
  description : Option String
  functionalAreas : List String
  startDate : Option String
  deadline : String
  tasks : List Task
  archived : Bool
deriving DecidableEq, Repr

/-! ## Loosely-typed store values

Firestore hands back untyped data; `JsVal` is the JavaScript value
universe the runtime guards scrutinize (numbers restricted to integers,
see the header). -/

/-- A loosely-typed JavaScript value. -/
inductive JsVal where
  | vNull
  | vUndefined
  | vBool (b : Bool)
  | vNum (n : Int)
  | vStr (s : String)
  | vArr (elems : List JsVal)
  | vObj (fields : List (String × JsVal))

mutual

/-- Model of `String(v)` string coercion. -/
def jsToString : JsVal → String
  | .vNull => "null"
  | .vUndefined => "undefined"
  | .vBool true => "true"
  | .vBool false => "false"
  | .vNum n => toString n
  | .vStr s => s
  | .vArr xs => jsToStringArr xs
  | .vObj _ => "[object Object]"

/-- `Array.prototype.toString`: elements joined by commas, with `null` and
`undefined` elements rendered as the empty string. -/
def jsToStringArr : List JsVal → String
  | [] => ""
  | [x] => jsToStringElem x
  | x :: y :: rest => jsToStringElem x ++ "," ++ jsToStringArr (y :: rest)

/-- One array element as rendered by `Array.prototype.join`. -/
def jsToStringElem : JsVal → String
  | .vNull => ""
  | .vUndefined => ""
  | v => jsToString v

end

/-- JavaScript truthiness (`Boolean(v)`). -/
def jsTruthy : JsVal → Bool
  | .vNull => false
  | .vUndefined => false
  | .vBool b => b
  | .vNum n => n ≠ 0
  | .vStr s => s ≠ ""
  | .vArr _ => true
  | .vObj _ => true

/-- Property lookup on an object's field list (a field bag is a finite
map: object fields are unique); absent keys read as `undefined`. -/
def objGet : List (String × JsVal) → String → JsVal
  | [], _ => .vUndefined
  | (k', v) :: rest, k => if k' = k then v else objGet rest k

/-- Property access `v[k]` on an arbitrary value (only objects carry the
named fields the guards read; on anything else the guards see
`undefined`). -/
def jsGetField (v : JsVal) (k : String) : JsVal :=
  match v with
  | .vObj fields => objGet fields k
  | _ => .vUndefined

/-- Source `asStringArray`: arrays are mapped through `String(v)` and
empty strings dropped by `filter(Boolean)`; every other input yields `[]`. -/
def asStringArray (x : JsVal) : List String :=
  match x with
  | .vArr xs => (xs.map jsToString).filter (fun s => s ≠ "")
  | _ => []

/-- Is the string one of the three status labels? (source `statusSet.has`). -/
def isStatusString (s : String) : Bool :=
  s = "todo" || s = "ongoing" || s = "done"

/-- Source `isTask` guard: a non-null object-typed value whose `title` is
a string and whose `status` is one of the three labels.  (`typeof v ===
"object"` is also true of arrays and `null`; `null` is excluded
explicitly, and an array has no `title` field, so it fails the guard.) -/
def isTaskVal (v : JsVal) : Bool :=
  match v with
  | .vObj fields =>
    (match objGet fields "title" with
      | .vStr _ => true
      | _ => false)
    && (match objGet fields "status" with
      | .vStr s => isStatusString s
      | _ => false)
  | _ => false

/-- Decode one of the three status labels (the `?? "todo"` fallback of the
source is the catch-all arm; it is unreachable behind `isTask`). -/
def statusOfString (s : String) : TaskStatus :=
  if s = "ongoing" then .ongoing
  else if s = "done" then .done
  else .todo

/-- Build the surviving task of `asTaskArray`'s `map`: keep a non-empty
string id, otherwise generate one; keep the (guard-checked) title and
status; keep `area` only when it is a string. -/
def mkTask (freshId : String) (v : JsVal) : Task where
  id := match jsGetField v "id" with
    | .vStr s => if s ≠ "" then s else freshId
    | _ => freshId
  title := match jsGetField v "title" with
    | .vStr s => s
    | _ => ""
  status := match jsGetField v "status" with
    | .vStr s => statusOfString s
    | _ => .todo
  area := match jsGetField v "area" with
    | .vStr s => some s
    | _ => none

/-- Worker for `asTaskArray`: `filter(isTask)` then `map`; the id supply
index advances only on surviving elements, matching the order in which
`generateId()` is reached in the source's `map` over the filtered array. -/
def asTaskArrayGo (gen : Nat → String) : Nat → List JsVal → List Task
  | _, [] => []
  | i, v :: rest =>
    if isTaskVal v then mkTask (gen i) v :: asTaskArrayGo gen (i + 1) rest
    else asTaskArrayGo gen i rest

/-- Source `asTaskArray`: non-arrays yield `[]`; arrays are filtered by
the `isTask` guard and survivors normalized. -/
def asTaskArray (gen : Nat → String) (x : JsVal) : List Task :=
  match x with
  | .vArr xs => asTaskArrayGo gen 0 xs
  | _ => []

/-- Source `FirestoreProjectFields`: the loosely-typed document shape read
back from the store (absent fields read as `undefined`). -/
structure FirestoreProjectFields where
  id : JsVal
  name : JsVal
  description : JsVal
  functionalAreas : JsVal
  startDate : JsVal
  deadline : JsVal
  tasks : JsVal
  archived : JsVal

/-- A loosely-typed document with no fields at all. -/
def emptyDocFields : FirestoreProjectFields :=
  ⟨.vUndefined, .vUndefined, .vUndefined, .vUndefined, .vUndefined, .vUndefined, .vUndefined, .vUndefined⟩

/-- Source `const id = typeof data.id === "string" && data.id ? data.id :
d.id`: a non-empty string id wins, anything else falls back to the store
key. -/
def mapId (key : String) (v : JsVal) : String :=
  match v with
  | .vStr s => if s ≠ "" then s else key
  | _ => key

/-- Source `typeof v === "string" ? v : ""` (used for `name` and
`description`). -/
def mapStr (v : JsVal) : String :=
  match v with
  | .vStr s => s
  | _ => ""

/-- Source `const deadline = typeof data.deadline === "string" &&
data.deadline ? data.deadline : new Date().toISOString().slice(0, 10)`. -/
def mapDeadline (todayISO : String) (v : JsVal) : String :=
  match v with
  | .vStr s => if s ≠ "" then s else todayISO
  | _ => todayISO

/-- Source `const startDate = typeof data.startDate === "string" &&
data.startDate ? data.startDate : defaultStartFromDeadline(deadline)`. -/
def mapStart (deadline : String) (v : JsVal) : JsResult String :=
  match v with
  | .vStr s => if s ≠ "" then .ok s else defaultStartFromDeadline deadline
  | _ => defaultStartFromDeadline deadline

/-- Source `mapDocToProject`.  `gen` determinizes `generateId()`,
`todayISO` is `new Date().toISOString().slice(0, 10)` at call time, `key`
is the snapshot's document id `d.id`.  The result is `thrown` exactly when
`defaultStartFromDeadline` raises (deadline a non-empty string that is not
a parseable date, and no usable `startDate`). -/
def mapDocToProject (gen : Nat → String) (todayISO : String) (key : String)
    (data : FirestoreProjectFields) : JsResult Project :=
  match mapStart (mapDeadline todayISO data.deadline) data.startDate with
  | .thrown => .thrown
  | .ok startDate =>
    .ok { id := mapId key data.id, name := mapStr data.name,
          description := some (mapStr data.description),
          functionalAreas := asStringArray data.functionalAreas,
          startDate := some startDate,
          deadline := mapDeadline todayISO data.deadline,
          tasks := asTaskArray gen data.tasks, archived := jsTruthy data.archived }

/-- Re-encode a mapped `Project` as the loosely-typed field bag the store
would hand back for it (what `setDoc` writes, minus the server
timestamp). -/
def taskToVal (t : Task) : JsVal :=
  .vObj [("id", .vStr t.id), ("title", .vStr t.title),
         ("status", .vStr (match t.status with
            | .todo => "todo"
            | .ongoing => "ongoing"
            | .done => "done")),
         ("area", match t.area with
            | some a => .vStr a
            | none => .vUndefined)]

/-! ## Progress aggregator -/

/-- Model of `Math.round` on an exact rational `num / den` (`den` positive
in every use): the nearest integer, halves rounding toward positive
infinity, i.e. `Math.round(x) = floor(x + 1/2)`; `Int` division is floor
division. -/
def mathRound (num den : Int) : Int :=
  (2 * num + den) / (2 * den)

/-- Number of tasks of a project with status `done` (source
`p.tasks.filter((t) => t.status === "done").length`). -/
def doneCount (p : Project) : Nat :=
  (p.tasks.filter fun t => t.status = TaskStatus.done).length

/-- Source `projectProgress`: `0` for an empty task list, otherwise
`Math.round((done / tasks.length) * 100)` with the quotient taken
exactly. -/
def projectProgress (p : Project) : Int :=
  if p.tasks.length = 0 then 0
  else mathRound ((doneCount p : Int) * 100) (p.tasks.length : Int)

/-- The stored field bag of a `Project` (see `taskToVal`). -/
def projectToDoc (p : Project) : FirestoreProjectFields where
  id := .vStr p.id
  name := .vStr p.name
  description := match p.description with
    | some s => .vStr s
    | none => .vUndefined
  functionalAreas := .vArr (p.functionalAreas.map JsVal.vStr)
  startDate := match p.startDate with
    | some s => .vStr s
    | none => .vUndefined
  deadline := .vStr p.deadline
  tasks := .vArr (p.tasks.map taskToVal)
  archived := .vBool p.archived

/-! ## Filter pipeline (the `filtered` memo of `ProjectDashboard`) -/

/-- The four category tabs. -/
inductive Tab where
  | all
  | ongoing
  | week
  | overdue
deriving DecidableEq, Repr

/-- Archived-visibility stage: with the toggle off, archived projects are
hidden (source `showArchived ? true : !p.archived`). -/
def matchesArchivedView (showArchived : Bool) (p : Project) : Bool :=
  if showArchived then true else !p.archived

/-- Category-tab stage.  `daysUntil` comparisons follow the source
(`NaN < 0` and `NaN >= 0` are both false, so an unparseable deadline
matches neither `overdue` nor `week`). -/
def matchesTab (now : Int) (tab : Tab) (p : Project) : Bool :=
  match tab with
  | .all => true
  | .ongoing => p.tasks.any fun t => t.status = TaskStatus.ongoing
  | .overdue =>
    match daysUntil p.deadline now with
    | some k => k < 0
    | none => false
  | .week =>
    match daysUntil p.deadline now with
    | some k => 0 ≤ k && k ≤ 7
    | none => false

/-- The haystack the free-text search scans: name, description,
comma-joined functional areas and comma-joined task titles, joined by
spaces (an undefined description renders as `""` under
`Array.prototype.join`). -/
def searchHaystack (p : Project) : String :=
  String.intercalate " "
    [p.name, p.description.getD "", String.intercalate ", " p.functionalAreas,
     String.intercalate ", " (p.tasks.map Task.title)]

/-- Free-text stage: case-insensitive substring match of the query
against the haystack (source lower-cases both sides; the query is not
trimmed before matching). -/
def matchesSearch (q : String) (p : Project) : Bool :=
  jsIncludes (jsToLower (searchHaystack p)) (jsToLower q)

/-- Source `filtered` memo: archived-visibility, then tab, then — only
when the query is not blank — the free-text match. -/
def filteredProjects (projects : List Project) (showArchived : Bool)
    (tab : Tab) (q : String) (now : Int) : List Project :=
  let normalized := projects.filter (matchesArchivedView showArchived)
  let byTab := normalized.filter (matchesTab now tab)
  if jsTrim q = "" then byTab
  else byTab.filter (matchesSearch q)

/-! ## Edit dialog buffer and `upsertProject` -/

/-- The dialog's edit buffer (source `form` state; `faText` — the raw
functional-areas text — travels separately, like in the source). -/
structure Form where
  name : String
  description : String
  functionalAreas : List String
  startDate : String
  deadline : String
  tasks : List Task
  archived : Bool
deriving DecidableEq, Repr

/-- Task normalization inside the upsert payload: `map` over the form's
task rows keeping position, generating an id for rows whose id is empty
(source `id: t.id || generateId()`; `title: t.title || ""` and
`status: t.status ?? "todo"` are identities on the typed form rows and
are left as the identity here). -/
def payloadTasksGo (gen : Nat → String) : Nat → List Task → List Task
  | _, [] => []
  | i, t :: rest =>
    { t with id := if t.id = "" then gen i else t.id } :: payloadTasksGo gen (i + 1) rest

/-- See `payloadTasksGo`. -/
def payloadTasks (gen : Nat → String) (ts : List Task) : List Task :=
  payloadTasksGo gen 0 ts

/-- Source `const start = form.startDate && form.startDate.trim() ?
form.startDate : defaultStartFromDeadline(...)`: a blank (empty or
all-whitespace) form start date falls back to the deadline-derived
default, which may throw. -/
def upsertStart (form : Form) (deadline : String) : JsResult String :=
  if form.startDate ≠ "" ∧ jsTrim form.startDate ≠ "" then .ok form.startDate
  else defaultStartFromDeadline deadline

/-- The payload `upsertProject` builds from the edit buffer:
`editing`'s id is reused when editing, otherwise `freshId` is generated;
empty name becomes `"Untitled"`; the functional areas come from the raw
`faText` (split on commas, trimmed, empties dropped); an empty deadline
defaults to today; a blank start date defaults to the deadline minus 30
days (which throws for an unparseable non-empty deadline, exactly as the
source's `defaultStartFromDeadline` does). -/
def upsertPayload (editing : Option Project) (form : Form) (faText : String)
    (todayISO : String) (freshId : String) (gen : Nat → String) :
    JsResult Project :=
  match upsertStart form (if form.deadline = "" then todayISO else form.deadline) with
  | .thrown => .thrown
  | .ok start =>
    .ok { id := match editing with
            | some e => e.id
            | none => freshId,
          name := if form.name = "" then "Untitled" else form.name,
          description := some form.description,
          functionalAreas :=
            ((jsSplitComma faText).map jsTrim).filter fun s => s ≠ "",
          startDate := some start,
          deadline := if form.deadline = "" then todayISO else form.deadline,
          tasks := payloadTasks gen form.tasks,
          archived := form.archived }

/-- The list update `upsertProject` performs: replace in place when the
payload's id already occurs, else prepend. -/
def upsertList (payload : Project) (prev : List Project) : List Project :=
  if prev.any (fun p => p.id = payload.id) then
    prev.map fun p => if p.id = payload.id then payload else p
  else payload :: prev

/-! ## `setProjectTaskStatus` -/

/-- Source `setProjectTaskStatus`: map over the list, and in every
project whose id matches, map over its tasks replacing the status of
every task whose id matches. -/
def setProjectTaskStatus (projects : List Project) (projectId taskId : String)
    (status : TaskStatus) : List Project :=
  projects.map fun p =>
    if p.id = projectId then
      { p with tasks := p.tasks.map fun t =>
          if t.id = taskId then { t with status } else t }
    else p

/-! ## Synchronization layer and effect discipline

`ProjectDashboard` holds `projects` and a `loaded` flag.  The load effect
(empty dependency list, so it runs once) fetches the collection, stores
it, then sets `loaded`.  The persist effect (dependencies `[projects,
loaded]`) runs after every committed state change and bails out while
`!loaded`; otherwise it fire-and-forgets `saveProjectsCloud(projects)`,
which issues one merge-upsert per project carrying the full record plus a
server timestamp. -/

/-- One `setDoc(doc(db, "projects", p.id), { ...p, updatedAt:
serverTimestamp() }, { merge: true })` call. -/
structure WriteOp where
  docKey : String
  fields : Project
  hasServerTimestamp : Bool
  merge : Bool
deriving DecidableEq, Repr

/-- The write `saveProjectsCloud` issues for one project. -/
def writeFor (p : Project) : WriteOp where
  docKey := p.id
  fields := p
  hasServerTimestamp := true
  merge := true

/-- Source `saveProjectsCloud`: one merge-upsert per project of the list. -/
def saveProjectsCloud (projects : List Project) : List WriteOp :=
  projects.map writeFor

/-- The component state the two effects read. -/
structure DashState where
  projects : List Project
  loaded : Bool

/-- Initial component state: empty list, not yet loaded. -/
def initDash : DashState where
  projects := []
  loaded := false

/-- A committed state change: either the one-shot initial load resolving
(`setProjects(rows); setLoaded(true)`, batched into one commit), or a
local mutation of the project list (upsert, archive toggle, task-status
change, delete). -/
inductive DashEvent where
  | loadComplete (rows : List Project)
  | mutate (f : List Project → List Project)

/-- Is the event the initial load resolving? -/
def eventIsLoad : DashEvent → Bool
  | .loadComplete _ => true
  | .mutate _ => false

/-- State after one committed change. -/
def stepDash (s : DashState) : DashEvent → DashState
  | .loadComplete rows => { projects := rows, loaded := true }
  | .mutate f => { s with projects := f s.projects }

/-- The persist effect, run after a commit: suppressed while `!loaded`,
otherwise one `saveProjectsCloud` pass over the current list. -/
def persistWrites (s : DashState) : List (List WriteOp) :=
  if s.loaded then [saveProjectsCloud s.projects] else []

/-- Run a sequence of committed changes from a state, collecting every
persistence pass the effect issues. -/
def runDash (s : DashState) : List DashEvent → DashState × List (List WriteOp)
  | [] => (s, [])
  | e :: es =>
    let s' := stepDash s e
    let (sf, ws) := runDash s' es
    (sf, persistWrites s' ++ ws)

/-! ## Upsert flow and write-failure handling

`upsertProject` updates the list, then unconditionally closes the dialog
and resets the edit buffer; the write happens later in the persist effect
as `void saveProjectsCloud(projects)` — the returned promise is
discarded, so there is no rejection handler, no log, and no failure
notice anywhere in the component (the state below has a
`failureNoticeShown` field solely so that the absence can be stated). -/

/-- The dialog-relevant component state. -/
structure UiState where
  projects : List Project
  dialogOpen : Bool
  editing : Option Project
  form : Form
  failureNoticeShown : Bool
deriving DecidableEq

/-- Source `resetForm`'s empty buffer. -/
def emptyForm : Form where
  name := ""
  description := ""
  functionalAreas := []
  startDate := ""
  deadline := ""
  tasks := []
  archived := false

/-- The synchronous tail of `upsertProject` after the payload is built:
`setProjects` (replace-or-prepend), `setOpen(false)`, `setEditing(null)`,
`resetForm()`. -/
def upsertFlowStep (ui : UiState) (payload : Project) : UiState where
  projects := upsertList payload ui.projects
  dialogOpen := false
  editing := none
  form := emptyForm
  failureNoticeShown := ui.failureNoticeShown

/-- What the component does with the outcome of the persistence write:
nothing — `void saveProjectsCloud(projects)` discards the promise, so
the settled outcome (fulfilled or rejected) never touches component
state. -/
def handleSaveOutcome (_outcome : JsResult Unit) (ui : UiState) : UiState :=
  ui

/-! ## Concrete sample data for witnesses -/

/-- A deterministic id supply standing in for `generateId()`. -/
def sampleGen : Nat → String := fun i => "gen-" ++ toString i

/-- A finished sample task. -/
def sampleDoneTask : Task where
  id := "t1"
  title := "design"
  area := some "ux"
  status := .done

/-- An unstarted sample task. -/
def sampleTodoTask : Task where
  id := "t2"
  title := "build"
  area := none
  status := .todo

/-- A sample project with one done and one todo task. -/
def sampleProject : Project where
  id := "p1"
  name := "Alpha"
  description := some "first"
  functionalAreas := ["auth"]
  startDate := some "2024-02-14"
  deadline := "2024-03-15"
  tasks := [sampleDoneTask, sampleTodoTask]
  archived := false

/-- A second sample project, task-free. -/
def sampleProject2 : Project where
  id := "p2"
  name := "Beta"
  description := some "second"
  functionalAreas := []
  startDate := some "2024-04-01"
  deadline := "2024-05-01"
  tasks := []
  archived := false

/-! ## Claim theorems -/

/-- C1: the spec claims the record mapper never raises on any input
record.  The code violates this: on the document `{deadline: "zzz"}`
(a non-empty string that no engine parses as a date) with `startDate`
absent, `mapDocToProject` computes the start-date default by calling
`defaultStartFromDeadline("zzz")`, whose `new Date("zzzT00:00:00")` is an
Invalid Date, and `toISOString()` on it throws a `RangeError` — the
mapper raises instead of returning a Project. -/
theorem c1_mapper_raises_on_unparseable_deadline :
    mapDocToProject (fun i => "gen-" ++ toString i) "2025-06-01" "k"
      { emptyDocFields with deadline := .vStr "zzz" } = .thrown := by
  decide

/-- C2: `projectProgress` returns 0 on an empty task list, and
`round(100 * k / n)` when exactly `k` of its `n` tasks are done — stated
both as equality with the rounded quotient and by the characteristic
bracketing `r - 1/2 ≤ 100k/n < r + 1/2` (cleared of denominators), which
pins the result as the nearest integer with halves rounding up. -/
theorem c2_projectProgress_round (p : Project) (k n : Nat)
    (hn : p.tasks.length = n) (hk : doneCount p = k) :
    (n = 0 → projectProgress p = 0) ∧
    (n ≠ 0 →
      projectProgress p = mathRound (100 * (k : Int)) (n : Int) ∧
      (n : Int) * (2 * projectProgress p - 1) ≤ 200 * (k : Int) ∧
      200 * (k : Int) < (n : Int) * (2 * projectProgress p + 1)) := by
  subst hn hk
  refine ⟨fun h0 => by simp [projectProgress, h0], fun hne => ?_⟩
  have hprog : projectProgress p =
      mathRound (100 * (doneCount p : Int)) (p.tasks.length : Int) := by
    simp [projectProgress, hne, mathRound]
    ring_nf
  refine ⟨hprog, ?_, ?_⟩ <;>
  · rw [hprog]
    have hpos : (0 : Int) < (p.tasks.length : Int) := by
      exact_mod_cast Nat.pos_of_ne_zero hne
    have hB : (0 : Int) < 2 * (p.tasks.length : Int) := by linarith
    have hdecomp := Int.ediv_add_emod
      (2 * (100 * (doneCount p : Int)) + (p.tasks.length : Int))
      (2 * (p.tasks.length : Int))
    have hm0 := Int.emod_nonneg
      (2 * (100 * (doneCount p : Int)) + (p.tasks.length : Int))
      (b := 2 * (p.tasks.length : Int)) (by linarith)
    have hmB := Int.emod_lt_of_pos
      (2 * (100 * (doneCount p : Int)) + (p.tasks.length : Int)) hB
    unfold mathRound
    linarith

/-- C2 witness: `sampleProject` has 2 tasks of which 1 is done, and its
progress is the rounded 50 percent. -/
theorem c2_witness :
    (sampleProject.tasks.length = 2 ∧ doneCount sampleProject = 1) ∧
    ((2 = 0 → projectProgress sampleProject = 0) ∧
     (2 ≠ 0 →
       projectProgress sampleProject = mathRound (100 * (1 : Int)) (2 : Int) ∧
       (2 : Int) * (2 * projectProgress sampleProject - 1) ≤ 200 * (1 : Int) ∧
       200 * (1 : Int) < (2 : Int) * (2 * projectProgress sampleProject + 1))) :=
  ⟨⟨by decide, by decide⟩,
   c2_projectProgress_round sampleProject 1 2 (by decide) (by decide)⟩

/-- C3 counterexample: the claim says a failing upsert write is surfaced
as a visible failure notice with the dialog left open.  At a concrete
editing state whose write is rejected, the dialog is closed and no notice
is shown — the negation of the claimed behaviour. -/
theorem c3_counterexample :
    (handleSaveOutcome .thrown (upsertFlowStep
        { projects := [sampleProject], dialogOpen := true,
          editing := some sampleProject, form := emptyForm,
          failureNoticeShown := false } sampleProject2)).dialogOpen = false ∧
    (handleSaveOutcome .thrown (upsertFlowStep
        { projects := [sampleProject], dialogOpen := true,
          editing := some sampleProject, form := emptyForm,
          failureNoticeShown := false } sampleProject2)).failureNoticeShown = false := by
  decide

/-- C3 amended: the outcome of the persistence write, success or
rejection, is discarded (`void saveProjectsCloud(...)`) and never touches
component state: nothing is caught, logged or surfaced, the dialog has
already been closed and the edit buffer reset unconditionally, and the
project list keeps the optimistic update. -/
theorem c3_write_failure_is_discarded (ui : UiState) (payload : Project)
    (outcome : JsResult Unit) :
    handleSaveOutcome outcome (upsertFlowStep ui payload) = upsertFlowStep ui payload ∧
    (upsertFlowStep ui payload).dialogOpen = false ∧
    (upsertFlowStep ui payload).editing = none ∧
    (upsertFlowStep ui payload).form = emptyForm ∧
    (upsertFlowStep ui payload).failureNoticeShown = ui.failureNoticeShown ∧
    (upsertFlowStep ui payload).projects = upsertList payload ui.projects :=
  ⟨rfl, rfl, rfl, rfl, rfl, rfl⟩

/-- After any committed change, the `loaded` flag reads true exactly when
the initial load has completed somewhere in the history. -/
theorem runDash_loaded (s : DashState) (evs : List DashEvent) :
    (runDash s evs).1.loaded = (s.loaded || evs.any eventIsLoad) := by
  induction evs generalizing s with
  | nil => simp [runDash]
  | cons e es ih =>
    cases e with
    | loadComplete rows => simp [runDash, ih, stepDash, eventIsLoad]
    | mutate f => simp [runDash, ih, stepDash, eventIsLoad]

/-- While the `loaded` flag is down and no load completes, the persist
effect issues no writes. -/
theorem runDash_writes_nil (s : DashState) (evs : List DashEvent)
    (hs : s.loaded = false) (h : ∀ e ∈ evs, eventIsLoad e = false) :
    (runDash s evs).2 = [] := by
  induction evs generalizing s with
  | nil => simp [runDash]
  | cons e es ih =>
    have he := h e (by simp)
    cases e with
    | loadComplete rows => simp [eventIsLoad] at he
    | mutate f =>
      have : (stepDash s (.mutate f)).loaded = false := hs
      simp [runDash, persistWrites, this]
      exact ih _ this (fun e' he' => h e' (by simp [he']))

/-- C9: starting from the initial (not-yet-loaded) state, no persistence
write is issued during any prefix of the event history in which the
initial load has not yet completed, and the `loaded` flag — which gates
the persist effect — is up exactly when a load-completion has occurred. -/
theorem c9_no_write_before_load (evs : List DashEvent) :
    (runDash initDash (evs.takeWhile fun e => !eventIsLoad e)).2 = [] ∧
    (runDash initDash evs).1.loaded = evs.any eventIsLoad := by
  constructor
  · refine runDash_writes_nil _ _ rfl (fun e he => ?_)
    have := List.mem_takeWhile_imp he
    simpa using this
  · simpa using runDash_loaded initDash evs

/-- C10: once loaded, the persist effect fired by any committed change
issues exactly one pass, containing one merge-upsert per project of the
whole current list — each keyed by the project's id and carrying the full
record plus a server timestamp. -/
theorem c10_persist_writes_whole_list (s : DashState) (e : DashEvent)
    (h : (stepDash s e).loaded = true) :
    persistWrites (stepDash s e) = [saveProjectsCloud (stepDash s e).projects] ∧
    (saveProjectsCloud (stepDash s e).projects).length =
      (stepDash s e).projects.length ∧
    (∀ (j : Nat) (p0 : Project), (stepDash s e).projects[j]? = some p0 →
      (saveProjectsCloud (stepDash s e).projects)[j]? =
        some ({ docKey := p0.id, fields := p0, hasServerTimestamp := true, merge := true } : WriteOp)) := by
  refine ⟨by simp [persistWrites, h], by simp [saveProjectsCloud], ?_⟩
  intro j p0 hj
  simp [saveProjectsCloud, List.getElem?_map, hj, writeFor]

/-- C10 witness: a mutation on a loaded one-project state persists that
whole project with a timestamped merge write. -/
theorem c10_witness :
    (stepDash ⟨[sampleProject], true⟩ (.mutate fun l => l)).loaded = true ∧
    (persistWrites (stepDash ⟨[sampleProject], true⟩ (.mutate fun l => l)) =
      [saveProjectsCloud (stepDash ⟨[sampleProject], true⟩
        (.mutate fun l => l)).projects] ∧
     (saveProjectsCloud (stepDash ⟨[sampleProject], true⟩
        (.mutate fun l => l)).projects).length =
      (stepDash ⟨[sampleProject], true⟩ (.mutate fun l => l)).projects.length ∧
     (∀ (j : Nat) (p0 : Project), (stepDash ⟨[sampleProject], true⟩
          (.mutate fun l => l)).projects[j]? = some p0 →
        (saveProjectsCloud (stepDash ⟨[sampleProject], true⟩
          (.mutate fun l => l)).projects)[j]? =
          some ({ docKey := p0.id, fields := p0, hasServerTimestamp := true, merge := true } : WriteOp))) :=
  ⟨rfl, c10_persist_writes_whole_list ⟨[sampleProject], true⟩ (.mutate fun l => l) rfl⟩

/-- Membership in the filter pipeline's output: the archived-visibility,
tab and (when the query is not blank) free-text predicates, conjoined. -/
theorem mem_filteredProjects (projects : List Project) (sa : Bool) (tab : Tab)
    (q : String) (now : Int) (p : Project) :
    p ∈ filteredProjects projects sa tab q now ↔
      p ∈ projects ∧ matchesArchivedView sa p = true ∧
      matchesTab now tab p = true ∧
      (jsTrim q = "" ∨ matchesSearch q p = true) := by
  unfold filteredProjects
  by_cases hq : jsTrim q = "" <;>
    simp [hq, List.mem_filter, and_assoc] <;>
    intro _ <;>
    constructor <;>
    · intro h
      tauto

/-- C4: for fixed settings the overdue tab shows a subset of the all tab;
a non-blank query never enlarges the result relative to the blank query;
and membership in the filtered list is exactly the conjunction of the
archived-visibility, tab, and (non-blank) free-text predicates. -/
theorem c4_filters_narrow_and_conjoin (projects : List Project)
    (showArchived : Bool) (tab : Tab) (q : String) (now : Int) :
    (∀ p, p ∈ filteredProjects projects showArchived Tab.overdue q now →
          p ∈ filteredProjects projects showArchived Tab.all q now) ∧
    (jsTrim q ≠ "" →
      ∀ p, p ∈ filteredProjects projects showArchived tab q now →
           p ∈ filteredProjects projects showArchived tab "" now) ∧
    (∀ p, p ∈ filteredProjects projects showArchived tab q now ↔
          p ∈ projects ∧ matchesArchivedView showArchived p = true ∧
          matchesTab now tab p = true ∧
          (jsTrim q = "" ∨ matchesSearch q p = true)) := by
  refine ⟨?_, ?_, fun p => mem_filteredProjects projects showArchived tab q now p⟩
  · intro p h
    rw [mem_filteredProjects] at h ⊢
    exact ⟨h.1, h.2.1, rfl, h.2.2.2⟩
  · intro _ p h
    rw [mem_filteredProjects] at h ⊢
    exact ⟨h.1, h.2.1, h.2.2.1, Or.inl rfl⟩

/-- C4 witness: concrete instantiation (one visible project, non-blank
query "al", instant 0). -/
theorem c4_witness :
    jsTrim "al" ≠ "" ∧
    ((∀ p, p ∈ filteredProjects [sampleProject] false Tab.overdue "al" 0 →
           p ∈ filteredProjects [sampleProject] false Tab.all "al" 0) ∧
     (jsTrim "al" ≠ "" →
       ∀ p, p ∈ filteredProjects [sampleProject] false Tab.all "al" 0 →
            p ∈ filteredProjects [sampleProject] false Tab.all "" 0) ∧
     (∀ p, p ∈ filteredProjects [sampleProject] false Tab.all "al" 0 ↔
           p ∈ [sampleProject] ∧ matchesArchivedView false p = true ∧
           matchesTab 0 Tab.all p = true ∧
           (jsTrim "al" = "" ∨ matchesSearch "al" p = true))) :=
  ⟨by decide, c4_filters_narrow_and_conjoin [sampleProject] false Tab.all "al" 0⟩

/-- C8: `setProjectTaskStatus` changes at most the status of the matching
task inside the matching project — list length and order are preserved,
non-matching projects are untouched, every non-task field of the matching
project is untouched, its task list keeps length and order, non-matching
tasks are untouched, and a matching task changes only its status. -/
theorem c8_setTaskStatus_frame (ps : List Project) (pid tid : String)
    (st : TaskStatus) :
    (setProjectTaskStatus ps pid tid st).length = ps.length ∧
    (∀ (j : Nat) (p0 : Project), ps[j]? = some p0 →
      ((p0.id ≠ pid → (setProjectTaskStatus ps pid tid st)[j]? = some p0) ∧
       (p0.id = pid → ∃ p1,
          (setProjectTaskStatus ps pid tid st)[j]? = some p1 ∧
          p1.id = p0.id ∧ p1.name = p0.name ∧ p1.description = p0.description ∧
          p1.functionalAreas = p0.functionalAreas ∧
          p1.startDate = p0.startDate ∧ p1.deadline = p0.deadline ∧
          p1.archived = p0.archived ∧
          p1.tasks.length = p0.tasks.length ∧
          (∀ (k2 : Nat) (t0 : Task), p0.tasks[k2]? = some t0 →
            ((t0.id ≠ tid → p1.tasks[k2]? = some t0) ∧
             (t0.id = tid →
               p1.tasks[k2]? = some { t0 with status := st })))))) := by
  refine ⟨by simp [setProjectTaskStatus], ?_⟩
  intro j p0 hj
  constructor
  · intro hne
    simp [setProjectTaskStatus, List.getElem?_map, hj, hne]
  · intro heq
    refine ⟨{ p0 with tasks := p0.tasks.map fun t =>
        if t.id = tid then { t with status := st } else t }, ?_,
      rfl, rfl, rfl, rfl, rfl, rfl, rfl, by simp, ?_⟩
    · simp [setProjectTaskStatus, List.getElem?_map, hj, heq]
    · intro k2 t0 ht
      constructor
      · intro htne
        simp [List.getElem?_map, ht, htne]
      · intro hteq
        simp [List.getElem?_map, ht, hteq]

/-- C8 witness: moving task `t2` of project `p1` to `ongoing` leaves the
rest of the sample project intact. -/
theorem c8_witness :
    [sampleProject][0]? = some sampleProject ∧ sampleProject.id = "p1" ∧
    (∃ p1, (setProjectTaskStatus [sampleProject] "p1" "t2"
        TaskStatus.ongoing)[0]? = some p1 ∧
      p1.id = sampleProject.id ∧ p1.name = sampleProject.name ∧
      p1.description = sampleProject.description ∧
      p1.functionalAreas = sampleProject.functionalAreas ∧
      p1.startDate = sampleProject.startDate ∧
      p1.deadline = sampleProject.deadline ∧
      p1.archived = sampleProject.archived ∧
      p1.tasks.length = sampleProject.tasks.length ∧
      (∀ (k2 : Nat) (t0 : Task), sampleProject.tasks[k2]? = some t0 →
        ((t0.id ≠ "t2" → p1.tasks[k2]? = some t0) ∧
         (t0.id = "t2" →
           p1.tasks[k2]? = some { t0 with status := TaskStatus.ongoing })))) :=
  ⟨by decide, by decide,
   ((c8_setTaskStatus_frame [sampleProject] "p1" "t2" TaskStatus.ongoing).2
      0 sampleProject (by decide)).2 (by decide)⟩

/-- C6: with a parseable deadline, `daysUntil` is 0 at every instant of
the deadline day itself, negative at every instant of any later day
(i.e. whenever the deadline day lies strictly before "today"), and
non-increasing as the current instant advances. -/
theorem c6_daysUntil_spec (d : String) (now now2 : Int) (c : Ymd)
    (hc : parseYMD d = some c) :
    (dayOfInstant now = daysFromCivil c → daysUntil d now = some 0) ∧
    (daysFromCivil c < dayOfInstant now →
      ∃ k, daysUntil d now = some k ∧ k < 0) ∧
    (now ≤ now2 → ∀ (k k2 : Int), daysUntil d now = some k →
      daysUntil d now2 = some k2 → k2 ≤ k) := by
  unfold daysUntil dayOfInstant toDateAtEndMs
  rw [hc]
  simp only [Option.map_some']
  refine ⟨?_, ?_, ?_⟩
  · intro h
    have h0 : (daysFromCivil c * 86400000 + 86399999 - now) / 86400000 = 0 := by
      omega
    rw [h0]
  · intro h
    refine ⟨_, rfl, ?_⟩
    omega
  · intro hle k k2 h1 h2
    rw [Option.some.injEq] at h1 h2
    omega

/-- C6 witness: 2024-03-15 is day 19797; at an instant of that day
`daysUntil` is 0, and it does not increase toward a later instant. -/
theorem c6_witness :
    parseYMD "2024-03-15" = some ⟨2024, 3, 15⟩ ∧
    dayOfInstant (19797 * 86400000 + 123) = daysFromCivil ⟨2024, 3, 15⟩ ∧
    daysUntil "2024-03-15" (19797 * 86400000 + 123) = some 0 :=
  ⟨by decide, by decide,
   (c6_daysUntil_spec "2024-03-15" (19797 * 86400000 + 123)
      (19800 * 86400000) ⟨2024, 3, 15⟩ (by decide)).1 (by decide)⟩

/-- C5: the payload a successful upsert builds reuses the editing
project's id (fresh id otherwise), defaults an empty form deadline to
today and a blank form start date to the deadline minus 30 calendar days;
and the list update replaces in place on an id match (same positions,
same length) and prepends otherwise. -/
theorem c5_upsert_spec (editing : Option Project) (form : Form)
    (faText todayISO freshId : String) (gen : Nat → String)
    (payload : Project) (prev : List Project)
    (h : upsertPayload editing form faText todayISO freshId gen = .ok payload) :
    (∀ e, editing = some e → payload.id = e.id) ∧
    (editing = none → payload.id = freshId) ∧
    (form.deadline = "" → payload.deadline = todayISO) ∧
    (jsTrim form.startDate = "" → ∀ c, parseYMD payload.deadline = some c →
      payload.startDate =
        some (formatCivil (civilFromDays (daysFromCivil c - 30)))) ∧
    (prev.any (fun p => p.id = payload.id) = true →
      (upsertList payload prev).length = prev.length ∧
      (∀ (j : Nat) (p0 : Project), prev[j]? = some p0 →
        (upsertList payload prev)[j]? =
          some (if p0.id = payload.id then payload else p0))) ∧
    (prev.any (fun p => p.id = payload.id) = false →
      upsertList payload prev = payload :: prev) := by
  unfold upsertPayload at h
  cases heq : upsertStart form (if form.deadline = "" then todayISO else form.deadline) with
  | thrown =>
    rw [heq] at h
    exact absurd h (by simp)
  | ok start =>
    rw [heq] at h
    rw [JsResult.ok.injEq] at h
    subst h
    refine ⟨?_, ?_, ?_, ?_, ?_, ?_⟩
    · intro e he
      rw [he]
    · intro he
      rw [he]
    · intro h0
      simp [h0]
    · intro hb c hcparse
      have hcond : ¬(form.startDate ≠ "" ∧ jsTrim form.startDate ≠ "") :=
        fun h' => h'.2 hb
      unfold upsertStart at heq
      rw [if_neg hcond] at heq
      unfold defaultStartFromDeadline at heq
      simp only at hcparse
      rw [hcparse] at heq
      rw [JsResult.ok.injEq] at heq
      simp [heq]
    · intro hany
      unfold upsertList
      rw [if_pos hany]
      refine ⟨by simp, ?_⟩
      intro j p0 hj
      simp [List.getElem?_map, hj]
    · intro hnone
      unfold upsertList
      rw [if_neg (by simp [hnone])]

/-- Edit buffer for the C5 witness: empty start date, set deadline. -/
def c5Form : Form where
  name := "Alpha2"
  description := "d"
  functionalAreas := []
  startDate := ""
  deadline := "2024-06-15"
  tasks := [{ id := "", title := "t", area := none, status := .todo }]
  archived := false

/-- The payload the C5 witness's upsert builds. -/
def c5Payload : Project where
  id := "p1"
  name := "Alpha2"
  description := some "d"
  functionalAreas := ["x", "y"]
  startDate := some "2024-05-16"
  deadline := "2024-06-15"
  tasks := [{ id := "gen-0", title := "t", area := none, status := .todo }]
  archived := false

/-- C5 witness: editing `sampleProject` with a blank start date and the
id already present in the list — the id is reused, the start date
defaults to the deadline minus 30 days, and the update is in place. -/
theorem c5_witness :
    upsertPayload (some sampleProject) c5Form "x, y" "2024-01-01" "fresh"
        sampleGen = .ok c5Payload ∧
    ((∀ e, some sampleProject = some e → c5Payload.id = e.id) ∧
     (some sampleProject = none → c5Payload.id = "fresh") ∧
     (c5Form.deadline = "" → c5Payload.deadline = "2024-01-01") ∧
     (jsTrim c5Form.startDate = "" →
       ∀ c, parseYMD c5Payload.deadline = some c →
         c5Payload.startDate =
           some (formatCivil (civilFromDays (daysFromCivil c - 30)))) ∧
     ([sampleProject, sampleProject2].any
        (fun p => p.id = c5Payload.id) = true →
       (upsertList c5Payload [sampleProject, sampleProject2]).length =
         [sampleProject, sampleProject2].length ∧
       (∀ (j : Nat) (p0 : Project),
         [sampleProject, sampleProject2][j]? = some p0 →
         (upsertList c5Payload [sampleProject, sampleProject2])[j]? =
           some (if p0.id = c5Payload.id then c5Payload else p0))) ∧
     ([sampleProject, sampleProject2].any
        (fun p => p.id = c5Payload.id) = false →
       upsertList c5Payload [sampleProject, sampleProject2] =
         c5Payload :: [sampleProject, sampleProject2])) :=
  ⟨by decide,
   c5_upsert_spec (some sampleProject) c5Form "x, y" "2024-01-01" "fresh"
     sampleGen c5Payload [sampleProject, sampleProject2] (by decide)⟩

/-! ## Round-trip lemmas for mapper idempotence (C7) -/

/-- `String(v)` on a string is the identity. -/
theorem jsToString_vStr (s : String) : jsToString (.vStr s) = s := by
  simp [jsToString]

/-- `asStringArray` on an array literal. -/
theorem asStringArray_vArr (xs : List JsVal) :
    asStringArray (.vArr xs) = (xs.map jsToString).filter (fun s => s ≠ "") :=
  rfl

/-- Re-reading the mapped functional areas yields them unchanged: string
coercion is the identity on strings, and the empty-string filter is
idempotent. -/
theorem asStringArray_roundtrip (x : JsVal) :
    asStringArray (.vArr ((asStringArray x).map JsVal.vStr)) = asStringArray x := by
  have hmap : ∀ l : List String,
      asStringArray (.vArr (l.map JsVal.vStr)) = l.filter (fun s => s ≠ "") := by
    intro l
    rw [asStringArray_vArr, List.map_map]
    congr 1
    have : (jsToString ∘ JsVal.vStr) = fun s : String => s := by
      funext s
      simp [Function.comp, jsToString_vStr]
    rw [this]
    exact List.map_id l
  rw [hmap]
  cases x <;> simp [asStringArray, List.filter_filter]

/-- A mapped task re-encodes to a value that passes the `isTask` guard. -/
theorem isTaskVal_taskToVal (t : Task) : isTaskVal (taskToVal t) = true := by
  obtain ⟨i, ti, ar, st⟩ := t
  cases st <;> rfl

/-- Re-decoding a re-encoded task only re-examines its id. -/
theorem mkTask_taskToVal (g : String) (t : Task) :
    mkTask g (taskToVal t) = { t with id := if t.id ≠ "" then t.id else g } := by
  obtain ⟨i, ti, ar, st⟩ := t
  cases st <;> cases ar <;> rfl

/-- A decoded task's id is the generated one or is non-empty. -/
theorem mkTask_id_spec (g : String) (v : JsVal) :
    (mkTask g v).id = g ∨ (mkTask g v).id ≠ "" := by
  have hid : (mkTask g v).id = (match jsGetField v "id" with
    | .vStr s => if s ≠ "" then s else g
    | _ => g) := rfl
  rw [hid]
  rcases jsGetField v "id" with _ | _ | b | n | s | a | o
  · exact Or.inl rfl
  · exact Or.inl rfl
  · exact Or.inl rfl
  · exact Or.inl rfl
  · by_cases hs : s ≠ ""
    · right
      show (if s ≠ "" then s else g) ≠ ""
      rw [if_pos hs]
      exact hs
    · left
      show (if s ≠ "" then s else g) = g
      rw [if_neg hs]
  · exact Or.inl rfl
  · exact Or.inl rfl

/-- Re-decoding a decoded task with the same id supply entry yields it
unchanged (a kept id is non-empty and survives; a generated id either
survives or is the empty string the supply would regenerate verbatim). -/
theorem mkTask_roundtrip (g : String) (v : JsVal) :
    mkTask g (taskToVal (mkTask g v)) = mkTask g v := by
  rw [mkTask_taskToVal]
  have hy : (if (mkTask g v).id ≠ "" then (mkTask g v).id else g) =
      (mkTask g v).id := by
    by_cases h : (mkTask g v).id ≠ ""
    · rw [if_pos h]
    · rw [if_neg h]
      rcases mkTask_id_spec g v with hc | hc
      · exact hc.symm
      · exact absurd hc h
  rw [hy]

/-- The `filter(isTask).map(...)` pass is idempotent position by
position: every survivor survives again and re-decodes to itself. -/
theorem asTaskArrayGo_roundtrip (gen : Nat → String) (i : Nat)
    (xs : List JsVal) :
    asTaskArrayGo gen i ((asTaskArrayGo gen i xs).map taskToVal) =
      asTaskArrayGo gen i xs := by
  induction xs generalizing i with
  | nil => rfl
  | cons v rest ih =>
    by_cases hv : isTaskVal v = true
    · simp [asTaskArrayGo, hv, isTaskVal_taskToVal, mkTask_roundtrip, ih]
    · simp [asTaskArrayGo, hv, ih]

/-- `asTaskArray` round-trips on its own output. -/
theorem asTaskArray_roundtrip (gen : Nat → String) (x : JsVal) :
    asTaskArray gen (.vArr ((asTaskArray gen x).map taskToVal)) =
      asTaskArray gen x := by
  cases x with
  | vArr elems => exact asTaskArrayGo_roundtrip gen 0 elems
  | vNull => rfl
  | vUndefined => rfl
  | vBool b => rfl
  | vNum n => rfl
  | vStr s => rfl
  | vObj fields => rfl

/-- Reading back an id under its own value as store key is the identity. -/
theorem mapId_self (s : String) : mapId s (.vStr s) = s := by
  show (if s ≠ "" then s else s) = s
  rw [ite_self]

/-- The mapped deadline, read back, maps to itself (a non-empty deadline
is kept; an empty one re-falls back to the same today value). -/
theorem mapDeadline_roundtrip (todayISO : String) (v : JsVal) :
    mapDeadline todayISO (.vStr (mapDeadline todayISO v)) =
      mapDeadline todayISO v := by
  rcases v with _ | _ | b | n | s | a | o
  · exact ite_self todayISO
  · exact ite_self todayISO
  · exact ite_self todayISO
  · exact ite_self todayISO
  · show (if (if s ≠ "" then s else todayISO) ≠ ""
          then (if s ≠ "" then s else todayISO) else todayISO) =
         (if s ≠ "" then s else todayISO)
    by_cases hs : s ≠ ""
    · rw [if_pos hs, if_pos hs]
    · rw [if_neg hs, ite_self]
  · exact ite_self todayISO
  · exact ite_self todayISO

/-- The mapped start date, read back, maps to the same value (a non-empty
start is kept; an empty one re-runs the same deadline-derived default). -/
theorem mapStart_roundtrip (dl : String) (v : JsVal) (start : String)
    (h : mapStart dl v = .ok start) : mapStart dl (.vStr start) = .ok start := by
  show (if start ≠ "" then JsResult.ok start else defaultStartFromDeadline dl) =
    .ok start
  by_cases hs : start ≠ ""
  · rw [if_pos hs]
  · push_neg at hs
    rw [if_neg (by simp [hs])]
    rcases v with _ | _ | b | n | s | a | o
    · exact h
    · exact h
    · exact h
    · exact h
    · have h2 : (if s ≠ "" then JsResult.ok s else defaultStartFromDeadline dl) =
          JsResult.ok start := h
      by_cases hss : s ≠ ""
      · rw [if_pos hss, JsResult.ok.injEq] at h2
        exact absurd (h2.trans hs) hss
      · rwa [if_neg hss] at h2
    · exact h
    · exact h

/-- C7: the record mapper is idempotent — feeding a mapped Project's own
stored field bag back through the mapper (under its own id as store key
and the same id supply and today value) returns it unchanged. -/
theorem c7_mapper_idempotent (gen : Nat → String) (todayISO key : String)
    (data : FirestoreProjectFields) (p : Project)
    (h : mapDocToProject gen todayISO key data = .ok p) :
    mapDocToProject gen todayISO p.id (projectToDoc p) = .ok p := by
  unfold mapDocToProject at h
  cases hs : mapStart (mapDeadline todayISO data.deadline) data.startDate with
  | thrown =>
    rw [hs] at h
    exact absurd h (by simp)
  | ok start =>
    rw [hs] at h
    rw [JsResult.ok.injEq] at h
    subst h
    unfold mapDocToProject projectToDoc
    simp only
    rw [mapDeadline_roundtrip]
    rw [mapStart_roundtrip _ _ _ hs]
    simp [mapId_self, asStringArray_roundtrip, asTaskArray_roundtrip,
          jsTruthy, mapStr]

/-- A loosely-typed stored document for the C7 witness: no id (the store
key must be used), a malformed task element to drop, a task without an id
to regenerate, and several absent fields to default. -/
def c7Doc : FirestoreProjectFields :=
  { emptyDocFields with
      name := .vStr "Gamma"
      deadline := .vStr "2025-07-01"
      tasks := .vArr [.vNum 3,
                      .vObj [("title", .vStr "a"), ("status", .vStr "done")]] }

/-- The Project `c7Doc` maps to. -/
def c7Proj : Project where
  id := "k"
  name := "Gamma"
  description := some ""
  functionalAreas := []
  startDate := some "2025-06-01"
  deadline := "2025-07-01"
  tasks := [{ id := "gen-0", title := "a", area := none, status := .done }]
  archived := false

/-- C7 witness: mapping `c7Doc` yields `c7Proj`, and mapping `c7Proj`'s
own stored field bag yields it back unchanged. -/
theorem c7_witness :
    mapDocToProject sampleGen "2025-01-15" "k" c7Doc = .ok c7Proj ∧
    mapDocToProject sampleGen "2025-01-15" c7Proj.id (projectToDoc c7Proj) =
      .ok c7Proj :=
  ⟨by decide,
   c7_mapper_idempotent sampleGen "2025-01-15" "k" c7Doc c7Proj (by decide)⟩

end ProjMgmt
